import Mathlib

/-!
Shallow embedding of the identity-reconciliation and storage-quota core of the
photo-log backend (`app/crud.py`: `get_or_create_user`, `get_user_upload_size`),
together with the relational rows they read and write
(`app/models/user.py`, `app/models/photo.py`, and the event model).
-/

namespace PhotoLog

/-- A stored row of the `users` table (`app/models/user.py`): `id` is the
external-identity subject (primary key), `email` is unique and non-nullable,
`name` is optional.  The `avatar_file_size` column is modelled from the spec:
the column declaration is not in the `user.py` under `src/`, but `crud.py`
reads `user.avatar_file_size` and the spec's data model gives User an
optional avatar size stored as text. -/
structure UserRow where
  id : String
  email : String
  name : Option String
  avatar_file_size : Option String
deriving DecidableEq, Repr

/-- A stored row of the `photos` table (`app/models/photo.py`): only the
columns read by the quota accountant are modelled.  `uploaded_by` and
`file_size` are nullable text columns. -/
structure PhotoRow where
  id : String
  event_id : String
  uploaded_by : Option String
  file_size : Option String
deriving DecidableEq, Repr

/-- Modelled from the spec: `app/models/event.py` is not under `src/` (only
its callers are).  Per the spec's data model an Event has a unique id, a
required host foreign key into `users.id`, and an optional cover-image file
size stored as text. -/
structure EventRow where
  id : String
  host_id : String
  cover_image_file_size : Option String
deriving DecidableEq, Repr

/-- The relational store as read by the quota accountant: the three tables. -/
structure DB where
  users : List UserRow
  events : List EventRow
  photos : List PhotoRow
deriving DecidableEq, Repr

/-- The three failure kinds of the identity reconciler.  The Python code
raises `ValueError` with distinct messages; the spec names them
`InvalidInput` (empty email), `DuplicateIdentity` (signup with an email
owned by a different id) and `ReconciliationFailed` (re-query after an
insert race found nothing). -/
inductive ReconcileError where
  | invalidInput
  | duplicateIdentity
  | reconciliationFailed
deriving DecidableEq, Repr

/-- The caller-supplied identity assertion (`user_info` dict): subject id
(`uid`), email and optional display name.  A missing or empty email is
modelled as `""` — the code's `if not email` check treats both the same. -/
structure UserInfo where
  uid : String
  email : String
  name : Option String
deriving DecidableEq, Repr

instance : DecidableEq (Except ReconcileError UserRow) := fun a b =>
  match a, b with
  | .error x, .error y =>
      if h : x = y then isTrue (congrArg Except.error h)
      else isFalse (fun hc => h (by cases hc; rfl))
  | .error _, .ok _ => isFalse (fun hc => Except.noConfusion hc)
  | .ok _, .error _ => isFalse (fun hc => Except.noConfusion hc)
  | .ok x, .ok y =>
      if h : x = y then isTrue (congrArg Except.ok h)
      else isFalse (fun hc => h (by cases hc; rfl))

/-- Outcome of one `get_or_create_user` call: the returned row or the raised
error, together with the `users` table after the call. -/
structure ReconcileOutcome where
  res : Except ReconcileError UserRow
  users : List UserRow
deriving DecidableEq, Repr

/-- `db.query(UserModel).filter(UserModel.email == email).first()` — the
first stored row with the given email. -/
def findByEmail (users : List UserRow) (email : String) : Option UserRow :=
  users.find? (fun u => u.email == email)

/-- The ORM mutation `user.name = ...; db.commit()`: the first row with the
given email gets the new display name; all other rows are untouched. -/
def updateNameAt (users : List UserRow) (email : String) (n : String) :
    List UserRow :=
  match users with
  | [] => []
  | u :: rest =>
      if u.email == email then { u with name := some n } :: rest
      else u :: updateNameAt rest email n

/-- The uniqueness constraints of the `users` table: `id` is the primary key
and `email` is declared unique, so `db.commit()` of an insert raises
`IntegrityError` exactly when some stored row already holds the new row's id
or email. -/
def violatesUnique (users : List UserRow) (row : UserRow) : Bool :=
  users.any (fun u => u.id == row.id || u.email == row.email)

/-- `app/crud.py::get_or_create_user(db, user_info, is_signup)` over the
`users` table:
* empty email raises (`InvalidInput`);
* if a row with the email exists: raise `DuplicateIdentity` when its id
  differs from `uid` and this is a signup; otherwise update the display name
  when one is provided and differs, and return the row;
* otherwise insert `(uid, email, name)`; on a uniqueness violation roll
  back, re-query by `email OR id` and return the hit, raising
  `ReconciliationFailed` when even that finds nothing. -/
def get_or_create_user (users : List UserRow) (info : UserInfo)
    (is_signup : Bool) : ReconcileOutcome :=
  if info.email = "" then ⟨.error .invalidInput, users⟩
  else
    match findByEmail users info.email with
    | some user =>
        if user.id ≠ info.uid ∧ is_signup then
          ⟨.error .duplicateIdentity, users⟩
        else
          match info.name with
          | some n =>
              if user.name = some n then ⟨.ok user, users⟩
              else ⟨.ok { user with name := some n },
                    updateNameAt users info.email n⟩
          | none => ⟨.ok user, users⟩
    | none =>
        let row : UserRow := ⟨info.uid, info.email, info.name, none⟩
        if violatesUnique users row then
          match users.find? (fun u => u.email == info.email || u.id == info.uid) with
          | some u => ⟨.ok u, users⟩
          | none => ⟨.error .reconciliationFailed, users⟩
        else ⟨.ok row, users ++ [row]⟩

/-- Reachable-state invariant of the `users` table used by the reconciler
claims: emails are pairwise distinct (the declared unique constraint) and no
stored email is empty (rows are only ever created through `reconcile`, which
rejects empty emails). -/
def Wf (users : List UserRow) : Prop :=
  users.Pairwise (fun a b => a.email ≠ b.email) ∧ ∀ u ∈ users, u.email ≠ ""

/-- Whitespace characters skipped by the text-to-integer coercions. -/
def isWs (c : Char) : Bool :=
  c == ' ' || c == '\t' || c == '\n' || c == '\r'

/-- Value of a digit string, most significant digit first. -/
def digitsToNat (cs : List Char) : Nat :=
  cs.foldl (fun a c => a * 10 + (c.toNat - 48)) 0

/-- Modelled from the spec: the storage backend's `CAST(text AS INTEGER)`
used by `func.sum(cast(..., Integer))` (the engine configuration,
`app/config.py`, is not under `src/`; the spec fixes the semantics by
requiring unparseable values to coerce to 0, e.g. `"bad"` ↦ 0).  The
longest integer prefix after optional leading whitespace and an optional
sign is taken; a value with no such prefix coerces to 0. -/
def sqliteCastInt (s : String) : Int :=
  match s.toList.dropWhile isWs with
  | [] => 0
  | c :: rest =>
      if c = '-' then -(digitsToNat (rest.takeWhile Char.isDigit) : Int)
      else if c = '+' then (digitsToNat (rest.takeWhile Char.isDigit) : Int)
      else (digitsToNat ((c :: rest).takeWhile Char.isDigit) : Int)

/-- Python's `int(s)` on a string, as used for the avatar size: strips
surrounding whitespace, accepts an optional sign followed by digits only,
and fails (`None`, modelling the caught `ValueError`) on anything else. -/
def pythonInt (s : String) : Option Int :=
  match ((s.toList.dropWhile isWs).reverse.dropWhile isWs).reverse with
  | [] => none
  | c :: ds =>
      if c = '-' then
        if ds ≠ [] ∧ ds.all Char.isDigit then some (-(digitsToNat ds : Int))
        else none
      else if c = '+' then
        if ds ≠ [] ∧ ds.all Char.isDigit then some (digitsToNat ds : Int)
        else none
      else
        if (c :: ds).all Char.isDigit then some (digitsToNat (c :: ds) : Int)
        else none

/-- SQL `SUM(CAST(col AS INTEGER))` over a selected column: `NULL` entries
are ignored, and the sum of no non-`NULL` entries is `NULL` (Python `None`),
which `scalar()` hands back to the caller. -/
def sumCastSizes (sizes : List (Option String)) : Option Int :=
  match sizes.filterMap (fun o => o.map sqliteCastInt) with
  | [] => none
  | vs => some vs.sum

/-- The `if value:` accumulation pattern of `get_user_upload_size`: a `None`
or zero scalar is skipped, anything else is added. -/
def truthyAdd (t : Int) (o : Option Int) : Int :=
  match o with
  | none => t
  | some v => if v = 0 then t else t + v

/-- The `file_size` column of the photos the user uploaded
(`filter(PhotoModel.uploaded_by == user_id)`; an SQL `=` against a `NULL`
column never matches). -/
def photoSizeRows (db : DB) (user_id : String) : List (Option String) :=
  (db.photos.filter (fun p => p.uploaded_by == some user_id)).map
    (fun p => p.file_size)

/-- The `cover_image_file_size` column of the events joined to their host
row and filtered on `UserModel.id == user_id`: an event contributes exactly
when its `host_id` equals `user_id` and a user row with that id exists (the
inner join; `users.id` is a primary key, so the join never duplicates an
event row). -/
def eventCoverRows (db : DB) (user_id : String) : List (Option String) :=
  (db.events.filter (fun e =>
      e.host_id == user_id && db.users.any (fun u => u.id == e.host_id))).map
    (fun e => e.cover_image_file_size)

/-- `app/crud.py::get_user_upload_size(db, user_id)`: sum of cast photo
sizes, plus sum of cast event-cover sizes, plus the user's avatar size when
the row exists, the field is a non-empty string and Python's `int` parses
it (a parse failure is silently skipped). -/
def get_user_upload_size (db : DB) (user_id : String) : Int :=
  let total0 : Int := 0
  let total1 := truthyAdd total0 (sumCastSizes (photoSizeRows db user_id))
  let total2 := truthyAdd total1 (sumCastSizes (eventCoverRows db user_id))
  match db.users.find? (fun u => u.id == user_id) with
  | some u =>
      match u.avatar_file_size with
      | some s =>
          if s ≠ "" then
            match pythonInt s with
            | some v => total2 + v
            | none => total2
          else total2
      | none => total2
  | none => total2

/-- Claim-side reading of the quota formula, following the spec's words:
the summed (coerced) file sizes of the photos whose uploader is `user_id`. -/
def specPhotoBytes (db : DB) (user_id : String) : Int :=
  ((db.photos.filter (fun p => p.uploaded_by == some user_id)).map
    (fun p => (p.file_size.map sqliteCastInt).getD 0)).sum

/-- Claim-side reading of the quota formula, following the spec's words:
the summed (coerced) cover-image file sizes of the events whose host is
`user_id`. -/
def specEventCoverBytes (db : DB) (user_id : String) : Int :=
  ((db.events.filter (fun e => e.host_id == user_id)).map
    (fun e => (e.cover_image_file_size.map sqliteCastInt).getD 0)).sum

/-- Claim-side reading of the quota formula, following the spec's words:
the avatar file size of the user, if present (0 when the row is absent, the
field empty or unparseable). -/
def specAvatarBytes (db : DB) (user_id : String) : Int :=
  match db.users.find? (fun u => u.id == user_id) with
  | some u =>
      match u.avatar_file_size with
      | some s => if s = "" then 0 else (pythonInt s).getD 0
      | none => 0
  | none => 0

/-- A size string with no integer prefix: after optional whitespace and an
optional sign there is no leading digit, so the storage coercion yields 0. -/
def unparseableText (s : String) : Bool :=
  let cs := s.toList.dropWhile isWs
  let ds := if cs.head? = some '-' ∨ cs.head? = some '+' then cs.tail else cs
  ds.head?.all (fun c => !c.isDigit)

theorem findByEmail_of_mem {users : List UserRow} {r : UserRow}
    (hu : users.Pairwise (fun a b => a.email ≠ b.email)) (hr : r ∈ users) :
    findByEmail users r.email = some r := by
  induction users with
  | nil => cases hr
  | cons u rest ih =>
      rcases List.pairwise_cons.mp hu with ⟨hhead, htail⟩
      rcases List.mem_cons.mp hr with h | h
      · subst h
        exact List.find?_cons_of_pos _ (beq_self_eq_true _)
      · have hne : u.email ≠ r.email := hhead r h
        have : findByEmail (u :: rest) r.email = findByEmail rest r.email :=
          List.find?_cons_of_neg _ (by simp [hne])
        rw [this]
        exact ih htail h

theorem length_updateNameAt (users : List UserRow) (e n : String) :
    (updateNameAt users e n).length = users.length := by
  induction users with
  | nil => rfl
  | cons u rest ih =>
      by_cases h : (u.email == e) = true
      · simp [updateNameAt, h]
      · simp [updateNameAt, h, ih]

theorem findByEmail_updateNameAt (users : List UserRow) (e n : String) :
    findByEmail (updateNameAt users e n) e =
      (findByEmail users e).map (fun u => { u with name := some n }) := by
  induction users with
  | nil => rfl
  | cons u rest ih =>
      by_cases h : (u.email == e) = true
      · have hup : updateNameAt (u :: rest) e n =
            { u with name := some n } :: rest := by
          simp [updateNameAt, h]
        have h1 : findByEmail ({ u with name := some n } :: rest) e =
            some { u with name := some n } := List.find?_cons_of_pos _ h
        have h2 : findByEmail (u :: rest) e = some u := List.find?_cons_of_pos _ h
        rw [hup, h1, h2]
        rfl
      · have hup : updateNameAt (u :: rest) e n = u :: updateNameAt rest e n := by
          simp [updateNameAt, h]
        have h1 : findByEmail (u :: updateNameAt rest e n) e =
            findByEmail (updateNameAt rest e n) e := List.find?_cons_of_neg _ h
        have h2 : findByEmail (u :: rest) e = findByEmail rest e :=
          List.find?_cons_of_neg _ h
        rw [hup, h1, h2, ih]

theorem findByEmail_append_singleton {users : List UserRow} {e : String}
    (h : findByEmail users e = none) (r : UserRow) :
    findByEmail (users ++ [r]) e = if r.email == e then some r else none := by
  induction users with
  | nil =>
      rw [List.nil_append]
      by_cases hr : (r.email == e) = true
      · have h1 : findByEmail [r] e = some r := List.find?_cons_of_pos _ hr
        rw [h1, if_pos hr]
      · have h1 : findByEmail [r] e = findByEmail [] e :=
          List.find?_cons_of_neg _ hr
        rw [h1, if_neg hr]
        rfl
  | cons u rest ih =>
      have hu : ¬ (u.email == e) = true := by
        intro hc
        have hc2 : findByEmail (u :: rest) e = some u :=
          List.find?_cons_of_pos _ hc
        rw [hc2] at h
        cases h
      have htail : findByEmail rest e = none := by
        have hstep : findByEmail (u :: rest) e = findByEmail rest e :=
          List.find?_cons_of_neg _ hu
        rw [hstep] at h
        exact h
      have hstep2 : findByEmail ((u :: rest) ++ [r]) e =
          findByEmail (rest ++ [r]) e := by
        rw [List.cons_append]
        exact List.find?_cons_of_neg _ hu
      rw [hstep2]
      exact ih htail

theorem reconcile_state_eq_or_ok (users : List UserRow) (info : UserInfo)
    (b : Bool) :
    (get_or_create_user users info b).users = users ∨
      ∃ r, (get_or_create_user users info b).res = .ok r := by
  unfold get_or_create_user
  dsimp only
  repeat' split
  all_goals first
    | (left; rfl)
    | (right; exact ⟨_, rfl⟩)

/-- C1: for every stored user row with email `E` and id `A` (in a table
satisfying the schema invariants) and every `reconcile` call under signup
intent with email `E` and a subject id different from `A`, the call fails
with `DuplicateIdentity` and the table is unchanged, so no new user row is
created. -/
theorem C1_signup_duplicate_identity (users : List UserRow) (r : UserRow)
    (info : UserInfo) (hwf : Wf users) (hr : r ∈ users)
    (he : info.email = r.email) (hid : info.uid ≠ r.id) :
    get_or_create_user users info true =
      ⟨.error .duplicateIdentity, users⟩ := by
  have hne : info.email ≠ "" := he ▸ hwf.2 r hr
  have hfind : findByEmail users info.email = some r := by
    rw [he]
    exact findByEmail_of_mem hwf.1 hr
  have hmid : r.id ≠ info.uid := fun hc => hid hc.symm
  simp [get_or_create_user, hne, hfind, hmid]

/-- C2: for every stored user row with email `E` and id `A` (in a table
satisfying the schema invariants), a `reconcile` call under signin intent
with email `E` and a different subject id succeeds and returns that stored
row with its id still `A`; the display name is the only field it may
change, and it changes exactly when a name is provided in the input and
differs from the stored one. -/
theorem C2_signin_mismatch_tolerated (users : List UserRow) (r : UserRow)
    (info : UserInfo) (hwf : Wf users) (hr : r ∈ users)
    (he : info.email = r.email) (hid : info.uid ≠ r.id) :
    (∀ n, info.name = some n → r.name ≠ some n →
        get_or_create_user users info false =
          ⟨.ok { r with name := some n }, updateNameAt users info.email n⟩) ∧
      ((info.name = none ∨ info.name = r.name) →
        get_or_create_user users info false = ⟨.ok r, users⟩) := by
  have hne : info.email ≠ "" := he ▸ hwf.2 r hr
  have hfind : findByEmail users info.email = some r := by
    rw [he]
    exact findByEmail_of_mem hwf.1 hr
  constructor
  · intro n hn hdiff
    simp [get_or_create_user, hne, hfind, hn, hdiff]
  · intro hsame
    rcases hsame with hn | hn
    · simp [get_or_create_user, hne, hfind, hn]
    · cases hr' : r.name with
      | none => simp [get_or_create_user, hne, hfind, hr' ▸ hn]
      | some n => simp [get_or_create_user, hne, hfind, hr' ▸ hn, hr']

theorem C2_signin_mismatch_tolerated_witness :
    (get_or_create_user [⟨"A", "a@x", some "Old", none⟩]
        ⟨"B", "a@x", some "New"⟩ false =
      ⟨.ok ⟨"A", "a@x", some "New", none⟩,
        [⟨"A", "a@x", some "New", none⟩]⟩) ∧
    (get_or_create_user [⟨"A", "a@x", some "Old", none⟩]
        ⟨"B", "a@x", none⟩ false =
      ⟨.ok ⟨"A", "a@x", some "Old", none⟩,
        [⟨"A", "a@x", some "Old", none⟩]⟩) := by
  constructor
  · exact (C2_signin_mismatch_tolerated
      [⟨"A", "a@x", some "Old", none⟩] ⟨"A", "a@x", some "Old", none⟩
      ⟨"B", "a@x", some "New"⟩ ⟨by decide, by decide⟩ (by decide)
      rfl (by decide)).1 "New" rfl (by decide)
  · exact (C2_signin_mismatch_tolerated
      [⟨"A", "a@x", some "Old", none⟩] ⟨"A", "a@x", some "Old", none⟩
      ⟨"B", "a@x", none⟩ ⟨by decide, by decide⟩ (by decide)
      rfl (by decide)).2 (Or.inl rfl)

theorem C1_signup_duplicate_identity_witness :
    get_or_create_user [⟨"A", "a@x", none, none⟩] ⟨"B", "a@x", none⟩ true =
      ⟨.error .duplicateIdentity, [⟨"A", "a@x", none, none⟩]⟩ :=
  C1_signup_duplicate_identity [⟨"A", "a@x", none, none⟩]
    ⟨"A", "a@x", none, none⟩ ⟨"B", "a@x", none⟩
    ⟨by decide, by decide⟩ (by decide) rfl (by decide)

/-- C6: for every input whose email is empty — whatever the subject id,
display name, intent, and stored table — `reconcile` fails with
`InvalidInput` and leaves the table unchanged. -/
theorem C6_empty_email_invalid_input (users : List UserRow) (uid : String)
    (name : Option String) (b : Bool) :
    get_or_create_user users ⟨uid, "", name⟩ b =
      ⟨.error .invalidInput, users⟩ := by
  simp [get_or_create_user]

/-- C10: failure atomicity — whenever `reconcile` fails with `InvalidInput`
or `DuplicateIdentity`, the `users` table after the call is exactly the
table before it: no row inserted and no stored field updated. -/
theorem C10_failure_atomicity (users : List UserRow) (info : UserInfo)
    (b : Bool)
    (h : (get_or_create_user users info b).res = .error .invalidInput ∨
      (get_or_create_user users info b).res = .error .duplicateIdentity) :
    (get_or_create_user users info b).users = users := by
  rcases reconcile_state_eq_or_ok users info b with hst | ⟨r, hr⟩
  · exact hst
  · rcases h with h | h <;> rw [hr] at h <;> cases h

theorem C3_insert_counterexample :
    (get_or_create_user [⟨"A", "a@x", none, none⟩] ⟨"A", "b@x", none⟩
        false).users = [⟨"A", "a@x", none, none⟩] ∧
    (get_or_create_user [⟨"A", "a@x", none, none⟩] ⟨"A", "b@x", none⟩
        false).res = .ok ⟨"A", "a@x", none, none⟩ := by
  decide

/-- C3 (amended): for every input with non-empty email such that no stored
row has that email and, additionally, no stored row has id equal to the
subject id, `reconcile` under either intent appends exactly one new row
with the given id, email and name and returns that row. -/
theorem C3_creates_row_when_absent (users : List UserRow) (info : UserInfo)
    (b : Bool) (hne : info.email ≠ "")
    (hfind : findByEmail users info.email = none)
    (hid : ∀ u ∈ users, u.id ≠ info.uid) :
    get_or_create_user users info b =
      ⟨.ok ⟨info.uid, info.email, info.name, none⟩,
        users ++ [⟨info.uid, info.email, info.name, none⟩]⟩ := by
  have hviol :
      violatesUnique users ⟨info.uid, info.email, info.name, none⟩ = false := by
    simp only [violatesUnique, List.any_eq_false]
    intro u hu
    have h1 : ¬ (u.email == info.email) = true := by
      have := List.find?_eq_none.mp hfind u hu
      simpa using this
    have h2 : u.id ≠ info.uid := hid u hu
    simp_all
  simp [get_or_create_user, hne, hfind, hviol]

theorem C3_creates_row_when_absent_witness :
    get_or_create_user [⟨"A", "a@x", none, none⟩] ⟨"B", "b@x", some "N"⟩
        true =
      ⟨.ok ⟨"B", "b@x", some "N", none⟩,
        [⟨"A", "a@x", none, none⟩, ⟨"B", "b@x", some "N", none⟩]⟩ :=
  C3_creates_row_when_absent [⟨"A", "a@x", none, none⟩]
    ⟨"B", "b@x", some "N"⟩ true (by decide) (by decide) (by decide)

/-- C4: when the insert attempted by `reconcile` hits the uniqueness
constraint, the raw storage error is not propagated: the attempt is rolled
back (the table is left unchanged), the store is re-queried for a row whose
email equals the given email or whose id equals the given subject id, and
that row is returned if one exists; if the re-query finds nothing, the call
fails with `ReconciliationFailed`. -/
theorem C4_insert_race_recovery (users : List UserRow) (info : UserInfo)
    (b : Bool) (hne : info.email ≠ "")
    (hfind : findByEmail users info.email = none)
    (hviol :
      violatesUnique users ⟨info.uid, info.email, info.name, none⟩ = true) :
    (∀ u, users.find? (fun u => u.email == info.email || u.id == info.uid) =
          some u →
        get_or_create_user users info b = ⟨.ok u, users⟩) ∧
      (users.find? (fun u => u.email == info.email || u.id == info.uid) =
          none →
        get_or_create_user users info b =
          ⟨.error .reconciliationFailed, users⟩) := by
  constructor
  · intro u hq
    simp [get_or_create_user, hne, hfind, hviol, hq]
  · intro hq
    simp [get_or_create_user, hne, hfind, hviol, hq]

theorem C4_insert_race_recovery_witness :
    get_or_create_user [⟨"A", "a@x", none, none⟩] ⟨"A", "b@x", none⟩ false =
      ⟨.ok ⟨"A", "a@x", none, none⟩, [⟨"A", "a@x", none, none⟩]⟩ :=
  (C4_insert_race_recovery [⟨"A", "a@x", none, none⟩] ⟨"A", "b@x", none⟩
    false (by decide) (by decide) (by decide)).1
    ⟨"A", "a@x", none, none⟩ (by decide)

theorem reconcile_users_len (users : List UserRow) (info : UserInfo)
    (b : Bool) :
    (get_or_create_user users info b).users.length ≤ users.length + 1 := by
  unfold get_or_create_user
  dsimp only
  repeat' split
  all_goals simp [length_updateNameAt]

theorem reconcile_second_call (users : List UserRow) (info : UserInfo)
    (b : Bool) :
    get_or_create_user (get_or_create_user users info b).users info b =
      get_or_create_user users info b := by
  by_cases hmail : info.email = ""
  · simp [get_or_create_user, hmail]
  · cases hfind : findByEmail users info.email with
    | some u =>
        by_cases hdup : (u.id ≠ info.uid ∧ b = true)
        · simp [get_or_create_user, hmail, hfind, hdup]
        · cases hn : info.name with
          | none => simp [get_or_create_user, hmail, hfind, hdup, hn]
          | some n =>
              by_cases heq : u.name = some n
              · simp [get_or_create_user, hmail, hfind, hdup, hn, heq]
              · have h1 : get_or_create_user users info b =
                    ⟨.ok { u with name := some n },
                      updateNameAt users info.email n⟩ := by
                  simp [get_or_create_user, hmail, hfind, hdup, hn, heq]
                rw [h1]
                have hf2 : findByEmail (updateNameAt users info.email n)
                    info.email = some { u with name := some n } := by
                  rw [findByEmail_updateNameAt, hfind]
                  rfl
                have hdup2 :
                    ¬ ({ u with name := some n }.id ≠ info.uid ∧ b = true) :=
                  hdup
                simp [get_or_create_user, hmail, hf2, hdup2, hn]
    | none =>
        by_cases hviol :
            violatesUnique users ⟨info.uid, info.email, info.name, none⟩ = true
        · cases hq : users.find?
              (fun u => u.email == info.email || u.id == info.uid) with
          | some u =>
              have h1 : get_or_create_user users info b = ⟨.ok u, users⟩ := by
                simp [get_or_create_user, hmail, hfind, hviol, hq]
              rw [h1]
              exact h1
          | none =>
              have h1 : get_or_create_user users info b =
                  ⟨.error .reconciliationFailed, users⟩ := by
                simp [get_or_create_user, hmail, hfind, hviol, hq]
              rw [h1]
              exact h1
        · cases hn : info.name with
          | none =>
              rw [hn] at hviol
              have h1 : get_or_create_user users info b =
                  ⟨.ok ⟨info.uid, info.email, none, none⟩,
                    users ++ [⟨info.uid, info.email, none, none⟩]⟩ := by
                simp [get_or_create_user, hmail, hfind, hviol, hn]
              rw [h1]
              have hf2 : findByEmail
                  (users ++ [⟨info.uid, info.email, none, none⟩])
                  info.email = some ⟨info.uid, info.email, none, none⟩ := by
                rw [findByEmail_append_singleton hfind]
                simp
              simp [get_or_create_user, hmail, hf2, hn]
          | some n =>
              rw [hn] at hviol
              have h1 : get_or_create_user users info b =
                  ⟨.ok ⟨info.uid, info.email, some n, none⟩,
                    users ++ [⟨info.uid, info.email, some n, none⟩]⟩ := by
                simp [get_or_create_user, hmail, hfind, hviol, hn]
              rw [h1]
              have hf2 : findByEmail
                  (users ++ [⟨info.uid, info.email, some n, none⟩])
                  info.email = some ⟨info.uid, info.email, some n, none⟩ := by
                rw [findByEmail_append_singleton hfind]
                simp
              simp [get_or_create_user, hmail, hf2, hn]

theorem C5_identical_calls_counterexample :
    (get_or_create_user [] ⟨"A", "", none⟩ false).res =
        .error .invalidInput ∧
    (get_or_create_user (get_or_create_user [] ⟨"A", "", none⟩ false).users
        ⟨"A", "", none⟩ false).res = .error .invalidInput := by
  decide

/-- C5 (amended): for every input and table, the second of two `reconcile`
calls with identical input and no intervening external change returns
exactly the first call's outcome and leaves the table unchanged — so
whenever the calls return rows at all, both rows carry the same id — and
the two calls together perform at most one insert. -/
theorem C5_reconcile_idempotent (users : List UserRow) (info : UserInfo)
    (b : Bool) :
    get_or_create_user (get_or_create_user users info b).users info b =
        get_or_create_user users info b ∧
      (get_or_create_user (get_or_create_user users info b).users info
          b).users.length ≤ users.length + 1 := by
  refine ⟨reconcile_second_call users info b, ?_⟩
  rw [reconcile_second_call users info b]
  exact reconcile_users_len users info b

theorem sum_castSizes_filterMap_eq_map (rows : List (Option String)) :
    (rows.filterMap (fun o => o.map sqliteCastInt)).sum =
      (rows.map (fun o => (o.map sqliteCastInt).getD 0)).sum := by
  induction rows with
  | nil => rfl
  | cons o rest ih =>
      cases o with
      | none => simpa using ih
      | some s => simp [ih]

theorem truthyAdd_sumCastSizes (t : Int) (rows : List (Option String)) :
    truthyAdd t (sumCastSizes rows) =
      t + (rows.map (fun o => (o.map sqliteCastInt).getD 0)).sum := by
  cases hv : rows.filterMap (fun o => o.map sqliteCastInt) with
  | nil =>
      have h0 : (rows.map (fun o => (o.map sqliteCastInt).getD 0)).sum = 0 := by
        rw [← sum_castSizes_filterMap_eq_map, hv]
        rfl
      have hsum : sumCastSizes rows = none := by
        unfold sumCastSizes
        rw [hv]
      rw [hsum, h0]
      simp [truthyAdd]
  | cons v vs =>
      have hs : (rows.map (fun o => (o.map sqliteCastInt).getD 0)).sum =
          (v :: vs).sum := by
        rw [← sum_castSizes_filterMap_eq_map, hv]
      have hsum : sumCastSizes rows = some ((v :: vs).sum) := by
        unfold sumCastSizes
        rw [hv]
      rw [hsum, hs]
      by_cases hz : (v :: vs).sum = 0
      · simp [truthyAdd, hz]
      · simp [truthyAdd, hz]

theorem upload_total_decomp (db : DB) (uid : String) :
    get_user_upload_size db uid =
      truthyAdd (truthyAdd 0 (sumCastSizes (photoSizeRows db uid)))
          (sumCastSizes (eventCoverRows db uid)) +
        specAvatarBytes db uid := by
  unfold get_user_upload_size specAvatarBytes
  cases hu : db.users.find? (fun u => u.id == uid) with
  | none => simp
  | some u =>
      cases ha : u.avatar_file_size with
      | none => simp [ha]
      | some s =>
          by_cases hs : s = ""
          · simp [ha, hs]
          · cases hp : pythonInt s with
            | none => simp [ha, hs, hp]
            | some v => simp [ha, hs, hp]

theorem photoSizeRows_map_sum (db : DB) (uid : String) :
    ((photoSizeRows db uid).map (fun o => (o.map sqliteCastInt).getD 0)).sum =
      specPhotoBytes db uid := by
  unfold photoSizeRows specPhotoBytes
  rw [List.map_map]
  rfl

theorem eventCoverRows_of_fk (db : DB) (uid : String)
    (hfk : ∀ e ∈ db.events, ∃ u ∈ db.users, u.id = e.host_id) :
    eventCoverRows db uid =
      (db.events.filter (fun e => e.host_id == uid)).map
        (fun e => e.cover_image_file_size) := by
  unfold eventCoverRows
  congr 1
  apply List.filter_congr
  intro e he
  rcases hfk e he with ⟨u, hu, hidu⟩
  by_cases h : (e.host_id == uid) = true
  · have hany : db.users.any (fun u => u.id == e.host_id) = true :=
      List.any_eq_true.mpr ⟨u, hu, by simp [hidu]⟩
    simp [h, hany]
  · simp [h]

theorem eventCoverRows_map_sum (db : DB) (uid : String)
    (hfk : ∀ e ∈ db.events, ∃ u ∈ db.users, u.id = e.host_id) :
    ((eventCoverRows db uid).map (fun o => (o.map sqliteCastInt).getD 0)).sum =
      specEventCoverBytes db uid := by
  rw [eventCoverRows_of_fk db uid hfk]
  unfold specEventCoverBytes
  rw [List.map_map]
  rfl

/-- C7: for every user id and every database state whose events satisfy the
schema's host foreign key, the computed total equals the sum of the photo
file sizes the user uploaded, plus the sum of the cover sizes of the events
the user hosts, plus the user's avatar size if present; and when all three
categories have no contribution the total is 0 (no null propagates into
it). -/
theorem C7_quota_formula (db : DB) (user_id : String)
    (hfk : ∀ e ∈ db.events, ∃ u ∈ db.users, u.id = e.host_id) :
    get_user_upload_size db user_id =
        specPhotoBytes db user_id + specEventCoverBytes db user_id +
          specAvatarBytes db user_id ∧
      ((∀ p ∈ db.photos, p.uploaded_by ≠ some user_id) →
        (∀ e ∈ db.events, e.host_id ≠ user_id) →
        specAvatarBytes db user_id = 0 →
        get_user_upload_size db user_id = 0) := by
  have hmain : get_user_upload_size db user_id =
      specPhotoBytes db user_id + specEventCoverBytes db user_id +
        specAvatarBytes db user_id := by
    rw [upload_total_decomp, truthyAdd_sumCastSizes, truthyAdd_sumCastSizes,
      photoSizeRows_map_sum, eventCoverRows_map_sum db user_id hfk, zero_add]
  refine ⟨hmain, fun hp he hav => ?_⟩
  have h1 : specPhotoBytes db user_id = 0 := by
    unfold specPhotoBytes
    rw [List.filter_eq_nil_iff.mpr (by intro p hmem; simp [hp p hmem])]
    rfl
  have h2 : specEventCoverBytes db user_id = 0 := by
    unfold specEventCoverBytes
    rw [List.filter_eq_nil_iff.mpr (by intro e hmem; simp [he e hmem])]
    rfl
  rw [hmain, h1, h2, hav]
  simp

theorem C7_quota_formula_witness :
    get_user_upload_size
        ⟨[⟨"u", "e@x", none, some "7"⟩], [⟨"ev", "u", some "10"⟩],
          [⟨"p", "ev", some "u", some "5"⟩]⟩ "u" =
      specPhotoBytes
          ⟨[⟨"u", "e@x", none, some "7"⟩], [⟨"ev", "u", some "10"⟩],
            [⟨"p", "ev", some "u", some "5"⟩]⟩ "u" +
        specEventCoverBytes
          ⟨[⟨"u", "e@x", none, some "7"⟩], [⟨"ev", "u", some "10"⟩],
            [⟨"p", "ev", some "u", some "5"⟩]⟩ "u" +
        specAvatarBytes
          ⟨[⟨"u", "e@x", none, some "7"⟩], [⟨"ev", "u", some "10"⟩],
            [⟨"p", "ev", some "u", some "5"⟩]⟩ "u" :=
  (C7_quota_formula
    ⟨[⟨"u", "e@x", none, some "7"⟩], [⟨"ev", "u", some "10"⟩],
      [⟨"p", "ev", some "u", some "5"⟩]⟩ "u" (by decide)).1

theorem sqliteCastInt_of_unparseable {s : String}
    (h : unparseableText s = true) : sqliteCastInt s = 0 := by
  unfold unparseableText at h
  cases hcs : s.toList.dropWhile isWs with
  | nil =>
      unfold sqliteCastInt
      rw [hcs]
  | cons c rest =>
      rw [hcs] at h
      have hred : sqliteCastInt s =
          (if c = '-' then -(digitsToNat (rest.takeWhile Char.isDigit) : Int)
            else if c = '+' then
              (digitsToNat (rest.takeWhile Char.isDigit) : Int)
            else (digitsToNat ((c :: rest).takeWhile Char.isDigit) : Int)) := by
        unfold sqliteCastInt
        rw [hcs]
      rw [hred]
      by_cases h1 : c = '-'
      · subst h1
        rw [if_pos rfl]
        simp at h
        cases rest with
        | nil => simp [digitsToNat]
        | cons d tail =>
            simp at h
            simp [List.takeWhile_cons, h, digitsToNat]
      · by_cases h2 : c = '+'
        · subst h2
          rw [if_neg h1, if_pos rfl]
          simp at h
          cases rest with
          | nil => simp [digitsToNat]
          | cons d tail =>
              simp at h
              simp [List.takeWhile_cons, h, digitsToNat]
        · rw [if_neg h1, if_neg h2]
          simp [h1, h2] at h
          simp [List.takeWhile_cons, h, digitsToNat]

/-- C8: the quota computation never fails on corrupt data — a photo row
whose size field is absent or holds text with no integer prefix contributes
0 to the total instead of raising an error: adding such a row to the store
leaves `get_user_upload_size` unchanged for every user id.  (The witness
instantiates this at the spec's example: photo sizes `"1024"`, `"bad"`,
`"2048"` total 3072.) -/
theorem C8_corrupt_size_degrades_to_zero (db : DB) (user_id : String)
    (p : PhotoRow)
    (h : p.file_size = none ∨
      ∃ s, p.file_size = some s ∧ unparseableText s = true) :
    get_user_upload_size ⟨db.users, db.events, p :: db.photos⟩ user_id =
      get_user_upload_size db user_id := by
  have hev : eventCoverRows ⟨db.users, db.events, p :: db.photos⟩ user_id =
      eventCoverRows db user_id := rfl
  have hav : specAvatarBytes ⟨db.users, db.events, p :: db.photos⟩ user_id =
      specAvatarBytes db user_id := rfl
  rw [upload_total_decomp, upload_total_decomp, hev, hav]
  rw [truthyAdd_sumCastSizes, truthyAdd_sumCastSizes, truthyAdd_sumCastSizes,
    truthyAdd_sumCastSizes]
  have hrows : photoSizeRows ⟨db.users, db.events, p :: db.photos⟩ user_id =
      ((p :: db.photos).filter (fun q => q.uploaded_by == some user_id)).map
        (fun q => q.file_size) := rfl
  have h0 : (p.file_size.map sqliteCastInt).getD 0 = 0 := by
    rcases h with hnone | ⟨s, hs, hu⟩
    · rw [hnone]
      rfl
    · rw [hs]
      simp [sqliteCastInt_of_unparseable hu]
  by_cases hb : (p.uploaded_by == some user_id) = true
  · rw [hrows, List.filter_cons, if_pos hb]
    simp only [List.map_cons, List.sum_cons, h0, zero_add]
    rfl
  · rw [hrows, List.filter_cons, if_neg hb]
    rfl

theorem C8_corrupt_size_degrades_to_zero_witness :
    get_user_upload_size
        ⟨[], [],
          [⟨"p2", "ev", some "u", some "bad"⟩,
            ⟨"p1", "ev", some "u", some "1024"⟩,
            ⟨"p3", "ev", some "u", some "2048"⟩]⟩ "u" = 3072 :=
  (C8_corrupt_size_degrades_to_zero
    ⟨[], [],
      [⟨"p1", "ev", some "u", some "1024"⟩,
        ⟨"p3", "ev", some "u", some "2048"⟩]⟩ "u"
    ⟨"p2", "ev", some "u", some "bad"⟩
    (Or.inr ⟨"bad", rfl, by decide⟩)).trans (by decide)

theorem C9_total_counterexample :
    get_user_upload_size ⟨[], [], [⟨"p", "ev", some "u", some "-5"⟩]⟩ "u" <
      0 := by
  decide

/-- C9 (amended): for every user id and every database state in which every
stored size value coerces to a non-negative integer (photo and cover sizes
under the storage cast, the avatar size under Python's `int`) — as genuine
byte counts do — the integer returned by `get_user_upload_size` is ≥ 0.
A stored negative size string such as `"-5"` makes the unrestricted claim
false (see the counterexample). -/
theorem C9_nonneg_when_sizes_nonneg (db : DB) (user_id : String)
    (hp : ∀ p ∈ db.photos, ∀ s, p.file_size = some s → 0 ≤ sqliteCastInt s)
    (hev : ∀ e ∈ db.events, ∀ s, e.cover_image_file_size = some s →
      0 ≤ sqliteCastInt s)
    (ha : ∀ u ∈ db.users, ∀ s, u.avatar_file_size = some s →
      ∀ v, pythonInt s = some v → 0 ≤ v) :
    0 ≤ get_user_upload_size db user_id := by
  rw [upload_total_decomp, truthyAdd_sumCastSizes, truthyAdd_sumCastSizes,
    zero_add]
  have h1 : 0 ≤ ((photoSizeRows db user_id).map
      (fun o => (o.map sqliteCastInt).getD 0)).sum := by
    apply List.sum_nonneg
    intro x hx
    rcases List.mem_map.mp hx with ⟨o, ho, hxo⟩
    rcases List.mem_map.mp ho with ⟨prow, hprow, hpo⟩
    have hpmem : prow ∈ db.photos := (List.mem_filter.mp hprow).1
    rw [← hxo, ← hpo]
    cases hfs : prow.file_size with
    | none => simp
    | some s => simpa using hp prow hpmem s hfs
  have h2 : 0 ≤ ((eventCoverRows db user_id).map
      (fun o => (o.map sqliteCastInt).getD 0)).sum := by
    apply List.sum_nonneg
    intro x hx
    rcases List.mem_map.mp hx with ⟨o, ho, hxo⟩
    rcases List.mem_map.mp ho with ⟨erow, herow, heo⟩
    have hemem : erow ∈ db.events := (List.mem_filter.mp herow).1
    rw [← hxo, ← heo]
    cases hfs : erow.cover_image_file_size with
    | none => simp
    | some s => simpa using hev erow hemem s hfs
  have h3 : 0 ≤ specAvatarBytes db user_id := by
    unfold specAvatarBytes
    cases hu : db.users.find? (fun u => u.id == user_id) with
    | none => simp
    | some u =>
        have hmem := List.mem_of_find?_eq_some hu
        cases hav : u.avatar_file_size with
        | none => simp [hav]
        | some s =>
            by_cases hs : s = ""
            · simp [hav, hs]
            · cases hpi : pythonInt s with
              | none => simp [hav, hs, hpi]
              | some v =>
                  simpa [hav, hs, hpi] using ha u hmem s hav v hpi
  exact add_nonneg (add_nonneg h1 h2) h3

theorem C9_nonneg_when_sizes_nonneg_witness :
    0 ≤ get_user_upload_size
        ⟨[⟨"u", "e@x", none, some "7"⟩], [⟨"ev", "u", some "10"⟩],
          [⟨"p", "ev", some "u", some "1024"⟩]⟩ "u" :=
  C9_nonneg_when_sizes_nonneg
    ⟨[⟨"u", "e@x", none, some "7"⟩], [⟨"ev", "u", some "10"⟩],
      [⟨"p", "ev", some "u", some "1024"⟩]⟩ "u"
    (by decide) (by decide) (by decide)

theorem C10_failure_atomicity_witness :
    (get_or_create_user [⟨"A", "a@x", none, none⟩] ⟨"B", "", none⟩ true).users =
      [⟨"A", "a@x", none, none⟩] :=
  C10_failure_atomicity [⟨"A", "a@x", none, none⟩] ⟨"B", "", none⟩ true
    (Or.inl (by decide))

end PhotoLog
